import Mathlib

/-!
Shallow embedding of the `alligregator` CSV aggregation utility
(`src/main.rs`).  The program reads `<root>/<folder>/<filename>` for each
comma-separated folder name, keeps the first successfully read header line
(normalising `\r\n` to `\n`), prefixes every body line with its folder name,
and writes the whole buffer to the output file in one final write.

File contents are modelled as strings; the line-oriented reader
(`BufRead::read_line` and `BufRead::lines`) is modelled by structural
functions over `List Char`.  The file system is a function from path strings
to open results, and `runMain` returns an observable outcome record
(whether the output file was created, whether the final bulk write ran,
the bytes written, the log lines, and the fatal panic message if any).
-/

namespace Alligregator

/-- Error modes of the program: `Panic` aborts on a missing input file,
`Skip` silently skips it (mirrors Rust `enum ErrorMode`). -/
inductive ErrorMode where
  | Panic
  | Skip
deriving DecidableEq, Repr

/-- The parsed CLI arguments (mirrors Rust `struct Args`). -/
structure Args where
  filename : String
  root : String
  folders : String
  column : String
  output : String
  verbose : Bool
  error : ErrorMode
deriving DecidableEq, Repr

/-- Result of one read from the buffered reader (models Rust
`io::Result<String>`); `err` is an I/O or decode failure of that read. -/
inductive ReadResult where
  | ok (text : String)
  | err
deriving DecidableEq, Repr

/-- Rust `Result::ok()`: forget the error, keep the success. -/
def ReadResult.toOption : ReadResult → Option String
  | .ok t => some t
  | .err => none

/-- A file as seen through the buffered reader: the result of the single
`read_line` call for the header (on success the text still carries its
terminator), and the stream of `lines()` results for the body (on success
the terminator is already stripped). -/
structure FileContent where
  headerRead : ReadResult
  bodyReads : List ReadResult
deriving DecidableEq, Repr

/-- Outcome of the OS-level `File::open` call for an input path. -/
inductive OpenResult where
  | notFound
  | permissionDenied
  | otherError (cause : String)
  | found (file : FileContent)
deriving DecidableEq, Repr

/-- Outcome of the OS-level `File::create` call for the output path. -/
inductive CreateResult where
  | ok
  | permissionDenied
  | otherError (cause : String)
deriving DecidableEq, Repr

/-- Everything observable about one run of the program. -/
structure RunOutcome where
  outputCreated : Bool
  finalWrite : Bool
  written : Option String
  logs : List String
  fatal : Option String
deriving DecidableEq, Repr

/-! ### Text-level reader primitives -/

/-- Rust `str::split(',')`, accumulator form: cut the character list at every
comma; empty segments pass through. -/
def splitCommaAux (cur : List Char) : List Char → List (List Char)
  | [] => [cur.reverse]
  | c :: cs =>
    if c = ',' then cur.reverse :: splitCommaAux [] cs
    else splitCommaAux (c :: cur) cs

/-- Rust `args.folders.split(',')` as a list of folder-name strings. -/
def splitComma (s : String) : List String :=
  (splitCommaAux [] s.data).map (fun l => ⟨l⟩)

/-- Rust `BufRead::read_line`: take characters up to and including the first
newline (or to end of input); return the line and the rest. -/
def readLineSplit : List Char → List Char × List Char
  | [] => ([], [])
  | c :: cs =>
    if c = '\n' then ([c], cs)
    else
      let p := readLineSplit cs
      (c :: p.1, p.2)

/-- Rust `String::replace("\r\n", "\n")`: left-to-right, non-overlapping. -/
def replaceCRLF : List Char → List Char
  | [] => []
  | '\r' :: '\n' :: rest => '\n' :: replaceCRLF rest
  | c :: rest => c :: replaceCRLF rest

/-- String wrapper for `replaceCRLF`. -/
def replaceCRLFStr (s : String) : String := ⟨replaceCRLF s.data⟩

/-- The terminator stripping done by `BufRead::lines`: pop a trailing
newline, and if that uncovers a trailing carriage return, pop it too. -/
def stripLineEnding (l : List Char) : List Char :=
  if l.getLast? = some '\n' then
    if l.dropLast.getLast? = some '\r' then l.dropLast.dropLast else l.dropLast
  else l

/-- Rust `BufRead::lines` on the remaining input, accumulator form: `cur`
holds the current line so far, reversed. -/
def linesAux (cur : List Char) : List Char → List (List Char)
  | [] => if cur = [] then [] else [stripLineEnding cur.reverse]
  | c :: cs =>
    if c = '\n' then stripLineEnding (cur.reverse ++ ['\n']) :: linesAux [] cs
    else linesAux (c :: cur) cs

/-- Rust `BufRead::lines` over a character list. -/
def linesRust (s : List Char) : List (List Char) := linesAux [] s

/-- View a text file's raw contents through the buffered reader: the header
is everything `read_line` consumes (terminator included) and the body is the
`lines()` stream over the remainder; every read succeeds. -/
def fileOfString (s : String) : FileContent :=
  let p := readLineSplit s.data
  { headerRead := ReadResult.ok ⟨p.1⟩
    bodyReads := (linesRust p.2).map (fun l => ReadResult.ok ⟨l⟩) }

/-! ### Paths and messages -/

/-- Rust `Path::new(&args.root).join(folder).join(&args.filename)`. -/
def joinPath (root folder filename : String) : String :=
  root ++ "/" ++ folder ++ "/" ++ filename

/-- Rust `path.parent()` of the joined input path, i.e. `root/folder`; this
is what `open_input` prints as the "folder" in its panic messages. -/
def parentPath (root folder : String) : String :=
  root ++ "/" ++ folder

/-- The input path for a folder under the run's configuration. -/
def pathOf (args : Args) (folder : String) : String :=
  joinPath args.root folder args.filename

/-- Verbose log printed when a missing file is skipped. -/
def skipMsg (folder : String) : String :=
  "Couldn\x27t find file in folder \x27" ++ folder ++ "\x27, so skipping..."

/-- Panic message for a missing file under `Panic` mode. -/
def notFoundMsg (folder : String) : String :=
  "Couldn\x27t find file in folder \x27" ++ folder ++ "\x27!"

/-- Panic message of `open_input` on a permission error; it interpolates the
parent path of the input file. -/
def permMsg (parent : String) : String :=
  "Permission denied when trying to read file in folder \x27" ++ parent ++ "\x27!"

/-- Panic message of `open_input` on any other open error. -/
def otherOpenMsg (parent cause : String) : String :=
  "Encountered an error when reading file in folder \x27" ++ parent ++ "\x27: " ++ cause

/-- Panic message when the header `read_line` fails. -/
def headerFailMsg (folder : String) : String :=
  "Failed to read header from file in folder \x27" ++ folder ++ "\x27!"

/-- Panic message of `create_output` on a permission error. -/
def createPermMsg : String :=
  "Permission denied when trying to create output file!"

/-- Panic message of `create_output` on any other creation error. -/
def createOtherMsg (cause : String) : String :=
  "Encountered an error when creating output file: " ++ cause

/-! ### The program -/

/-- Rust `open_input`: `None` when the file is missing, a panic (modelled as
`Except.error` with the panic message) on permission or other open errors;
`path.parent()` is interpolated into those messages. -/
def openInput (parent : String) (r : OpenResult) : Except String (Option FileContent) :=
  match r with
  | .notFound => .ok none
  | .permissionDenied => .error (permMsg parent)
  | .otherError cause => .error (otherOpenMsg parent cause)
  | .found file => .ok (some file)

/-- Mutable state of the loop in `main`: the `found_header` flag, the
`lines` fragment buffer, and (for the model) the log lines printed so far. -/
structure LoopState where
  foundHeader : Bool
  lines : List String
  logs : List String
deriving DecidableEq, Repr

/-- Rust `lines.join("")`. -/
def joinAll : List String → String
  | [] => ""
  | s :: rest => s ++ joinAll rest

/-- The four fragments pushed for one successfully read body line. -/
def bodyFrags (folder : String) (file : FileContent) : List String :=
  (file.bodyReads.filterMap ReadResult.toOption).flatMap
    (fun l => [folder, ",", l, "\n"])

/-- One iteration of the folder loop in `main`: open the input, handle
absence according to the error mode, read the header (emitting it only if
none was emitted yet), then append every successfully read body line
prefixed with the folder name.  A fatal panic carries its message and the
logs printed so far. -/
def processFolder (args : Args) (fs : String → OpenResult) (folder : String)
    (st : LoopState) : Except (String × List String) LoopState :=
  match openInput (parentPath args.root folder) (fs (pathOf args folder)) with
  | .error msg => .error (msg, st.logs)
  | .ok none =>
    if args.error = ErrorMode.Skip then
      .ok { st with logs := st.logs ++ (if args.verbose then [skipMsg folder] else []) }
    else
      .error (notFoundMsg folder, st.logs)
  | .ok (some file) =>
    match file.headerRead with
    | .err => .error (headerFailMsg folder, st.logs)
    | .ok header =>
      let lines1 :=
        if st.foundHeader then st.lines
        else st.lines ++ [args.column, ",", replaceCRLFStr header]
      .ok { foundHeader := true
            lines := lines1 ++ bodyFrags folder file
            logs := st.logs }

/-- The folder loop of `main`, over the already-split folder list. -/
def processAll (args : Args) (fs : String → OpenResult) :
    List String → LoopState → Except (String × List String) LoopState
  | [], st => .ok st
  | f :: rest, st =>
    match processFolder args fs f st with
    | .error e => .error e
    | .ok st1 => processAll args fs rest st1

/-- The whole program: create (truncate) the output file, run the folder
loop over `args.folders.split(',')`, and on success perform the single bulk
write of the joined fragment buffer. -/
def runMain (args : Args) (createRes : CreateResult) (fs : String → OpenResult) :
    RunOutcome :=
  match createRes with
  | .permissionDenied =>
    { outputCreated := false, finalWrite := false, written := none
      logs := [], fatal := some createPermMsg }
  | .otherError cause =>
    { outputCreated := false, finalWrite := false, written := none
      logs := [], fatal := some (createOtherMsg cause) }
  | .ok =>
    match processAll args fs (splitComma args.folders) ⟨false, [], []⟩ with
    | .ok st =>
      { outputCreated := true, finalWrite := true, written := some (joinAll st.lines)
        logs := st.logs, fatal := none }
    | .error (msg, logs) =>
      { outputCreated := true, finalWrite := false, written := none
        logs := logs, fatal := some msg }

/-! ### Derived views of a run -/

/-- The file behind a folder's input path, when the open succeeds. -/
def folderOpen (args : Args) (fs : String → OpenResult) (f : String) :
    Option FileContent :=
  match fs (pathOf args f) with
  | .found file => some file
  | _ => none

/-- A folder opens successfully and its header read succeeds. -/
def folderOk (args : Args) (fs : String → OpenResult) (f : String) : Bool :=
  match fs (pathOf args f) with
  | .found file => (match file.headerRead with | .ok _ => true | .err => false)
  | _ => false

/-- A folder's input file does not exist. -/
def folderAbsent (args : Args) (fs : String → OpenResult) (f : String) : Bool :=
  match fs (pathOf args f) with
  | .notFound => true
  | _ => false

/-- The file behind a folder's path (junk default when it did not open). -/
def fileOf (args : Args) (fs : String → OpenResult) (f : String) : FileContent :=
  (folderOpen args fs f).getD ⟨.ok "", []⟩

/-- The text the header read produced (junk default on failure). -/
def headerText (file : FileContent) : String :=
  match file.headerRead with
  | .ok h => h
  | .err => ""

/-- The header fragments contributed by the first successfully opened
folder of the run (none when no folder opened). -/
def headerFragsFor (args : Args) (fs : String → OpenResult) :
    List String → List String
  | [] => []
  | f :: _ => [args.column, ",", replaceCRLFStr (headerText (fileOf args fs f))]

/-- The logs a run prints: one skip notice per absent folder when verbose. -/
def logsFor (args : Args) (fs : String → OpenResult) (L : List String) :
    List String :=
  if args.verbose then (L.filter (folderAbsent args fs)).map skipMsg else []

/-- The first line of a raw text file, terminator included, as `read_line`
returns it. -/
def headerLine (s : String) : String := ⟨(readLineSplit s.data).1⟩

/-- The aggregated text a folder's body contributes to the output: every
successfully read line, prefixed with the folder name and a comma and
terminated by a single newline. -/
def bodyText (folder : String) (file : FileContent) : String :=
  joinAll ((file.bodyReads.filterMap ReadResult.toOption).map
    (fun l => folder ++ "," ++ l ++ "\n"))

/-- The header text of the output, given the list of successfully opened
folders. -/
def headerPart (args : Args) (fs : String → OpenResult) :
    List String → String
  | [] => ""
  | f :: _ => args.column ++ "," ++ replaceCRLFStr (headerText (fileOf args fs f))

/-- The whole output text, given the list of successfully opened folders. -/
def outputFor (args : Args) (fs : String → OpenResult) (P : List String) :
    String :=
  headerPart args fs P ++ joinAll (P.map (fun f => bodyText f (fileOf args fs f)))

/-- Every listed folder either opens with a readable header, or is absent
while the run is in `Skip` mode: the conditions under which the loop cannot
panic. -/
def GoodRun (args : Args) (fs : String → OpenResult) (L : List String) : Prop :=
  ∀ f ∈ L, folderOk args fs f = true ∨
    (folderAbsent args fs f = true ∧ args.error = ErrorMode.Skip)

instance (args : Args) (fs : String → OpenResult) (L : List String) :
    Decidable (GoodRun args fs L) := by
  unfold GoodRun
  infer_instance

/-- Number of newline characters a string ends with. -/
def trailingNewlines (t : String) : Nat :=
  (t.data.reverse.takeWhile (fun c => c = '\n')).length

/-- Did this read succeed?  (What `filter_map(|result| result.ok())`
keeps.) -/
def ReadResult.isOkRead : ReadResult → Bool
  | .ok _ => true
  | .err => false

/-- Remove the failed body reads of an opened file, leaving everything
else of the file system untouched. -/
def eraseFailedReads : OpenResult → OpenResult
  | .found file =>
    .found { file with bodyReads := file.bodyReads.filter ReadResult.isOkRead }
  | r => r

/-- Arguments of the specified two-folder scenario
(`--filename data.csv --folders a,b --column src --root /tmp/in
--output out.csv`). -/
def argsC2 : Args :=
  { filename := "data.csv", root := "/tmp/in", folders := "a,b", column := "src"
    output := "out.csv", verbose := false, error := ErrorMode.Panic }

/-- The same arguments with the verbose flag set. -/
def argsVerbose : Args := { argsC2 with verbose := true }

/-- The same arguments with verbose set and `Skip` error mode. -/
def argsSkipVerbose : Args :=
  { argsC2 with verbose := true, error := ErrorMode.Skip }

/-- The same arguments with `Skip` error mode. -/
def argsSkip : Args := { argsC2 with error := ErrorMode.Skip }

/-- Raw contents of the two scenario input files, per folder name. -/
def contentsAB (f : String) : String :=
  if f = "a" then "h1,h2\n1,2\n"
  else if f = "b" then "h1,h2\n3,4\n"
  else ""

/-- The scenario input files as seen by the buffered reader. -/
def filesAB (f : String) : FileContent := fileOfString (contentsAB f)

/-- File system of the scenario: both folders hold a two-line CSV. -/
def fsAB : String → OpenResult := fun p =>
  if p = "/tmp/in/a/data.csv" then .found (fileOfString "h1,h2\n1,2\n")
  else if p = "/tmp/in/b/data.csv" then .found (fileOfString "h1,h2\n3,4\n")
  else .notFound

/-- File system where only folder `a` has its input file. -/
def fsOnlyA : String → OpenResult := fun p =>
  if p = "/tmp/in/a/data.csv" then .found (fileOfString "h1,h2\n1,2\n")
  else .notFound

/-- File system where folder `b`'s input file exists but is unreadable. -/
def fsPermB : String → OpenResult := fun p =>
  if p = "/tmp/in/a/data.csv" then .found (fileOfString "h1,h2\n1,2\n")
  else if p = "/tmp/in/b/data.csv" then .permissionDenied
  else .notFound

/-- File system where folder `a`'s file is missing and folder `b`'s file is
empty (zero bytes). -/
def fsEmptyB : String → OpenResult := fun p =>
  if p = "/tmp/in/b/data.csv" then .found (fileOfString "")
  else .notFound

/-! ### Characterising the folder loop -/

theorem joinAll_append (a b : List String) :
    joinAll (a ++ b) = joinAll a ++ joinAll b := by
  induction a with
  | nil => simp [joinAll]
  | cons x xs ih => simp [joinAll, ih, String.append_assoc]

theorem joinAll_flatMap {α : Type} (g : α → List String) (L : List α) :
    joinAll (L.flatMap g) = joinAll (L.map (fun x => joinAll (g x))) := by
  induction L with
  | nil => rfl
  | cons x xs ih => simp [List.flatMap_cons, joinAll_append, joinAll, ih]

theorem joinAll_bodyFrags (folder : String) (file : FileContent) :
    joinAll (bodyFrags folder file) = bodyText folder file := by
  unfold bodyFrags bodyText
  induction file.bodyReads.filterMap ReadResult.toOption with
  | nil => rfl
  | cons l ls ih =>
    rw [List.flatMap_cons, List.map_cons, joinAll_append, ih]
    simp [joinAll, String.append_assoc]

/-- Unpack a successful `folderOk` check. -/
theorem folderOk_elim (args : Args) (fs : String → OpenResult) (f : String)
    (hok : folderOk args fs f = true) :
    ∃ file h, fs (pathOf args f) = .found file ∧ file.headerRead = .ok h := by
  unfold folderOk at hok
  split at hok
  · next file heq =>
    split at hok
    · next h hh => exact ⟨file, h, heq, hh⟩
    · exact absurd hok (by simp)
  · exact absurd hok (by simp)

/-- Unpack a successful `folderAbsent` check. -/
theorem folderAbsent_elim (args : Args) (fs : String → OpenResult) (f : String)
    (habs : folderAbsent args fs f = true) :
    fs (pathOf args f) = OpenResult.notFound := by
  unfold folderAbsent at habs
  split at habs
  · next heq => exact heq
  · exact absurd habs (by simp)

/-- A non-erroring folder step lets the loop continue on the new state. -/
theorem processAll_cons (args : Args) (fs : String → OpenResult) (f : String)
    (rest : List String) (st st1 : LoopState)
    (hstep : processFolder args fs f st = .ok st1) :
    processAll args fs (f :: rest) st = processAll args fs rest st1 := by
  rw [processAll, hstep]

/-- The folder step for a folder that opens with a readable header. -/
theorem processFolder_found (args : Args) (fs : String → OpenResult)
    (f : String) (st : LoopState) (file : FileContent) (h : String)
    (hEq : fs (pathOf args f) = .found file) (hh : file.headerRead = .ok h) :
    processFolder args fs f st = .ok
      { foundHeader := true
        lines := (if st.foundHeader then st.lines
          else st.lines ++ [args.column, ",", replaceCRLFStr h]) ++
          bodyFrags f file
        logs := st.logs } := by
  simp [processFolder, openInput, hEq, hh]

/-- The folder step for an absent folder under `Skip` mode. -/
theorem processFolder_skip (args : Args) (fs : String → OpenResult)
    (f : String) (st : LoopState)
    (hEq : fs (pathOf args f) = OpenResult.notFound)
    (hskip : args.error = ErrorMode.Skip) :
    processFolder args fs f st = .ok
      { st with logs := st.logs ++ (if args.verbose then [skipMsg f] else []) } := by
  simp [processFolder, openInput, hEq, hskip]

/-- Master lemma: on a `GoodRun` folder list the loop never panics, and its
final state appends, to the starting state, the header fragments of the
first successfully opened folder (unless a header was already emitted), the
body fragments of every successfully opened folder in listed order, and one
skip log per absent folder when verbose. -/
theorem processAll_ok (args : Args) (fs : String → OpenResult)
    (L : List String) (st : LoopState) (H : GoodRun args fs L) :
    processAll args fs L st = .ok
      { foundHeader := st.foundHeader || !(L.filter (folderOk args fs)).isEmpty
        lines := st.lines ++
          (if st.foundHeader then [] else
            headerFragsFor args fs (L.filter (folderOk args fs))) ++
          (L.filter (folderOk args fs)).flatMap
            (fun f => bodyFrags f (fileOf args fs f))
        logs := st.logs ++ logsFor args fs L } := by
  induction L generalizing st with
  | nil =>
    simp [processAll, headerFragsFor, logsFor]
  | cons f rest ih =>
    have hrest : GoodRun args fs rest := fun g hg => H g (List.mem_cons_of_mem f hg)
    rcases H f (List.mem_cons_self f rest) with hok | ⟨habs, hskip⟩
    · obtain ⟨file, h, hEq, hh⟩ := folderOk_elim args fs f hok
      have hfile : fileOf args fs f = file := by
        simp [fileOf, folderOpen, hEq]
      have habs' : folderAbsent args fs f = false := by
        simp [folderAbsent, hEq]
      rw [processAll_cons args fs f rest st _
            (processFolder_found args fs f st file h hEq hh),
          ih _ hrest]
      congr 1
      have hhead : headerText file = h := by simp [headerText, hh]
      refine LoopState.mk.injEq _ _ _ _ _ _ ▸ ?_
      refine ⟨?_, ?_, ?_⟩
      · simp [List.filter_cons, hok]
      · cases hfh : st.foundHeader with
        | true =>
          simp [List.filter_cons, hok, List.flatMap_cons, hfile,
            List.append_assoc]
        | false =>
          simp [List.filter_cons, hok, List.flatMap_cons, hfile, hhead,
            headerFragsFor, List.append_assoc]
      · simp [logsFor, List.filter_cons, habs']
    · have hEq := folderAbsent_elim args fs f habs
      have hokb : folderOk args fs f = false := by
        simp [folderOk, hEq]
      rw [processAll_cons args fs f rest st _
            (processFolder_skip args fs f st hEq hskip),
          ih _ hrest]
      congr 1
      refine LoopState.mk.injEq _ _ _ _ _ _ ▸ ?_
      refine ⟨?_, ?_, ?_⟩
      · simp [List.filter_cons, hokb]
      · simp [List.filter_cons, hokb]
      · cases hv : args.verbose with
        | true => simp [logsFor, List.filter_cons, habs, hv, List.append_assoc]
        | false => simp [logsFor, hv]

/-- The comma splitter never returns an empty segment list. -/
theorem splitCommaAux_ne_nil (cur rest : List Char) :
    splitCommaAux cur rest ≠ [] := by
  induction rest generalizing cur with
  | nil => simp [splitCommaAux]
  | cons c cs ih =>
    rw [splitCommaAux]
    by_cases hc : c = ','
    · simp [hc]
    · simp only [hc, ite_false]
      exact ih _

/-- The split folder list is never empty. -/
theorem splitComma_ne_nil (s : String) : splitComma s ≠ [] := by
  unfold splitComma
  simp only [ne_eq, List.map_eq_nil_iff]
  exact splitCommaAux_ne_nil [] s.data

/-- Joining the loop's fragment buffer gives the structured output text. -/
theorem joinAll_run_lines (args : Args) (fs : String → OpenResult)
    (P : List String) :
    joinAll (headerFragsFor args fs P ++
        P.flatMap (fun f => bodyFrags f (fileOf args fs f))) =
      outputFor args fs P := by
  rw [joinAll_append, joinAll_flatMap]
  unfold outputFor
  congr 1
  · cases P with
    | nil => rfl
    | cons f P2 =>
      simp [headerFragsFor, headerPart, joinAll, String.append_assoc,
        String.append_empty]
  · simp [joinAll_bodyFrags]

/-- On a `GoodRun`, the whole program succeeds: the output file is created,
the final bulk write runs, the bytes written are the header part of the
first successfully opened folder followed by every opened folder's body
text in listed order, the logs are one skip notice per absent folder when
verbose, and there is no panic. -/
theorem runMain_ok (args : Args) (fs : String → OpenResult)
    (H : GoodRun args fs (splitComma args.folders)) :
    runMain args .ok fs =
      { outputCreated := true
        finalWrite := true
        written := some (outputFor args fs
          ((splitComma args.folders).filter (folderOk args fs)))
        logs := logsFor args fs (splitComma args.folders)
        fatal := none } := by
  have hloop := processAll_ok args fs (splitComma args.folders) ⟨false, [], []⟩ H
  simp only [runMain, hloop]
  simp [joinAll_run_lines]

/-- Running the loop over a prefix of folders that all open with readable
headers reaches the rest of the list without panicking and without
printing any log. -/
theorem processAll_prefix_ok (args : Args) (fs : String → OpenResult)
    (pre L2 : List String) (st : LoopState)
    (hpre : ∀ g ∈ pre, folderOk args fs g = true) :
    ∃ st1, processAll args fs (pre ++ L2) st = processAll args fs L2 st1 ∧
      st1.logs = st.logs := by
  induction pre generalizing st with
  | nil => exact ⟨st, rfl, rfl⟩
  | cons g pre2 ih =>
    obtain ⟨file, h, hEq, hh⟩ :=
      folderOk_elim args fs g (hpre g (List.mem_cons_self g pre2))
    rw [List.cons_append,
      processAll_cons args fs g (pre2 ++ L2) st _
        (processFolder_found args fs g st file h hEq hh)]
    obtain ⟨st1, heq, hlogs⟩ := ih _ (fun x hx => hpre x (List.mem_cons_of_mem g hx))
    exact ⟨st1, heq, hlogs⟩

/-! ### Line terminators -/

theorem stripLineEnding_subset (l : List Char) :
    ∀ c ∈ stripLineEnding l, c ∈ l := by
  intro c hc
  unfold stripLineEnding at hc
  split at hc
  · split at hc
    · exact List.dropLast_subset _ (List.dropLast_subset _ hc)
    · exact List.dropLast_subset _ hc
  · exact hc

theorem stripLineEnding_concat_newline (x : List Char) :
    stripLineEnding (x ++ ['\n']) =
      if x.getLast? = some '\r' then x.dropLast else x := by
  unfold stripLineEnding
  rw [List.getLast?_concat, List.dropLast_concat]
  simp

/-- No line produced by the `lines()` model contains a newline. -/
theorem newline_not_mem_linesAux (s : List Char) :
    ∀ cur, '\n' ∉ cur → ∀ l ∈ linesAux cur s, '\n' ∉ l := by
  induction s with
  | nil =>
    intro cur hcur l hl
    rw [linesAux] at hl
    split at hl
    · simp at hl
    · simp only [List.mem_singleton] at hl
      subst hl
      intro hmem
      exact hcur (List.mem_reverse.mp (stripLineEnding_subset _ _ hmem))
  | cons c cs ih =>
    intro cur hcur l hl
    rw [linesAux] at hl
    by_cases hc : c = '\n'
    · rw [if_pos hc] at hl
      rcases List.mem_cons.mp hl with hl | hl
      · subst hl
        rw [stripLineEnding_concat_newline]
        intro hmem
        split at hmem
        · exact hcur (List.mem_reverse.mp (List.dropLast_subset _ hmem))
        · exact hcur (List.mem_reverse.mp hmem)
      · exact ih [] (by simp) l hl
    · rw [if_neg hc] at hl
      refine ih (c :: cur) ?_ l hl
      intro hmem
      rcases List.mem_cons.mp hmem with hmem | hmem
      · exact hc hmem.symm
      · exact hcur hmem

theorem newline_not_mem_linesRust (s : List Char) :
    ∀ l ∈ linesRust s, '\n' ∉ l :=
  newline_not_mem_linesAux s [] (by simp)

/-- A body fragment `folder ++ "," ++ line ++ "\n"` built from a
newline-free line ends with exactly one newline. -/
theorem trailingNewlines_frag (folder l : String) (hl : '\n' ∉ l.data) :
    trailingNewlines (folder ++ "," ++ l ++ "\n") = 1 := by
  unfold trailingNewlines
  have hdata : (folder ++ "," ++ l ++ "\n").data
      = folder.data ++ [','] ++ l.data ++ ['\n'] := by
    rw [String.data_append, String.data_append, String.data_append]
  rw [hdata, List.reverse_append, List.reverse_append]
  simp only [List.reverse_cons, List.reverse_nil, List.nil_append,
    List.singleton_append, List.cons_append]
  rw [List.takeWhile_cons_of_pos (by decide)]
  have hrest : List.takeWhile (fun c => c = '\n')
      (l.data.reverse ++ (folder.data ++ [',']).reverse) = [] := by
    cases hld : l.data.reverse with
    | nil =>
      rw [List.nil_append, List.reverse_append]
      simp only [List.reverse_cons, List.reverse_nil, List.nil_append,
        List.singleton_append]
      exact List.takeWhile_cons_of_neg (by decide)
    | cons a t =>
      have ha : a ∈ l.data := by
        rw [← List.mem_reverse, hld]
        exact List.mem_cons_self a t
      rw [List.cons_append]
      refine List.takeWhile_cons_of_neg ?_
      simp only [decide_eq_true_eq]
      intro h
      exact hl (h ▸ ha)
  rw [hrest]
  rfl

/-! ### Field corollaries and error invisibility -/

theorem runMain_ok_fatal (args : Args) (fs : String → OpenResult)
    (H : GoodRun args fs (splitComma args.folders)) :
    (runMain args .ok fs).fatal = none := by
  rw [runMain_ok args fs H]

theorem runMain_ok_finalWrite (args : Args) (fs : String → OpenResult)
    (H : GoodRun args fs (splitComma args.folders)) :
    (runMain args .ok fs).finalWrite = true := by
  rw [runMain_ok args fs H]

theorem runMain_ok_written (args : Args) (fs : String → OpenResult)
    (H : GoodRun args fs (splitComma args.folders)) :
    (runMain args .ok fs).written = some (outputFor args fs
      ((splitComma args.folders).filter (folderOk args fs))) := by
  rw [runMain_ok args fs H]

theorem runMain_ok_logs (args : Args) (fs : String → OpenResult)
    (H : GoodRun args fs (splitComma args.folders)) :
    (runMain args .ok fs).logs = logsFor args fs (splitComma args.folders) := by
  rw [runMain_ok args fs H]

theorem filterMap_toOption_filter (l : List ReadResult) :
    (l.filter ReadResult.isOkRead).filterMap ReadResult.toOption =
      l.filterMap ReadResult.toOption := by
  induction l with
  | nil => rfl
  | cons r rs ih =>
    cases r <;> simp [ReadResult.isOkRead, ReadResult.toOption, ih]

theorem bodyFrags_erase (f : String) (file : FileContent) :
    bodyFrags f { file with bodyReads := file.bodyReads.filter ReadResult.isOkRead } =
      bodyFrags f file := by
  unfold bodyFrags
  rw [filterMap_toOption_filter]

theorem processFolder_erase (args : Args) (fs : String → OpenResult)
    (f : String) (st : LoopState) :
    processFolder args (fun p => eraseFailedReads (fs p)) f st =
      processFolder args fs f st := by
  unfold processFolder
  cases hEq : fs (pathOf args f) with
  | notFound => simp [openInput, eraseFailedReads, hEq]
  | permissionDenied => simp [openInput, eraseFailedReads, hEq]
  | otherError cause => simp [openInput, eraseFailedReads, hEq]
  | found file => simp [openInput, eraseFailedReads, hEq, bodyFrags_erase]

theorem processAll_erase (args : Args) (fs : String → OpenResult)
    (L : List String) (st : LoopState) :
    processAll args (fun p => eraseFailedReads (fs p)) L st =
      processAll args fs L st := by
  induction L generalizing st with
  | nil => rfl
  | cons f rest ih =>
    rw [processAll, processAll, processFolder_erase args fs f st]
    cases processFolder args fs f st with
    | error e => rfl
    | ok st1 => exact ih st1

theorem headerText_fileOfString (s : String) :
    headerText (fileOfString s) = headerLine s := rfl

/-! ### The claims -/

/-- C2: for the concrete run with filename `data.csv`, folders `a,b`,
column `src`, root `/tmp/in`, output `out.csv`, where `/tmp/in/a/data.csv`
contains "h1,h2\n1,2\n" and `/tmp/in/b/data.csv` contains "h1,h2\n3,4\n",
the run succeeds and writes exactly the bytes "src,h1,h2\na,1,2\nb,3,4\n"
to the output file. -/
theorem c2_concrete_scenario :
    runMain argsC2 .ok fsAB =
      { outputCreated := true, finalWrite := true
        written := some "src,h1,h2\na,1,2\nb,3,4\n"
        logs := [], fatal := none } := by
  decide

/-- C7: lines of an opened file whose read fails are silently dropped —
erasing every failed body read from the file system changes nothing
observable about the run (same output bytes, same logs, same fatal
behaviour), so a failed line contributes nothing, logs nothing, never
terminates the run, and all successfully read lines of the same file are
aggregated exactly as if the failures were not there. -/
theorem c7_failed_reads_invisible (args : Args) (createRes : CreateResult)
    (fs : String → OpenResult) :
    runMain args createRes (fun p => eraseFailedReads (fs p)) =
      runMain args createRes fs := by
  cases createRes with
  | permissionDenied => rfl
  | otherError cause => rfl
  | ok =>
    simp only [runMain]
    rw [processAll_erase args fs (splitComma args.folders) ⟨false, [], []⟩]

/-- C6 counterexample: a verbose run in which both folders are processed
successfully (the run succeeds and aggregates both) prints no log line at
all — in particular no per-folder completion message naming the folder and
the output path. -/
theorem c6_counterexample :
    argsVerbose.verbose = true ∧
    (runMain argsVerbose .ok fsAB).fatal = none ∧
    (runMain argsVerbose .ok fsAB).written = some "src,h1,h2\na,1,2\nb,3,4\n" ∧
    (runMain argsVerbose .ok fsAB).logs = [] := by
  decide

/-- C6 (amended): with the verbose flag set the program logs no per-folder
completion message after a successfully processed folder; the only verbose
logging of a run that does not panic is one skip notice per folder whose
input file was absent. -/
theorem c6_amended_only_skip_logs (args : Args) (fs : String → OpenResult)
    (H : GoodRun args fs (splitComma args.folders)) :
    (runMain args .ok fs).logs =
      if args.verbose then
        ((splitComma args.folders).filter (folderAbsent args fs)).map skipMsg
      else [] := by
  rw [runMain_ok_logs args fs H]
  rfl

/-- Witness for `c6_amended_only_skip_logs` at a concrete verbose `Skip`
run with folder `b` missing. -/
theorem c6_amended_only_skip_logs_witness :
    GoodRun argsSkipVerbose fsOnlyA (splitComma argsSkipVerbose.folders) ∧
    (runMain argsSkipVerbose .ok fsOnlyA).logs =
      (if argsSkipVerbose.verbose then
        ((splitComma argsSkipVerbose.folders).filter
          (folderAbsent argsSkipVerbose fsOnlyA)).map skipMsg
      else []) :=
  ⟨by decide, c6_amended_only_skip_logs argsSkipVerbose fsOnlyA (by decide)⟩

/-- C1: in every run in which each listed folder's input file exists, is
readable and is non-empty, the run succeeds and the output is exactly one
header fragment — the column label, a comma, and the first listed folder's
header with `\r\n` normalised to `\n` — followed by the prefixed body lines
of all folders; the headers of later folders appear nowhere in it. -/
theorem c1_unique_header (args : Args) (fs : String → OpenResult)
    (contents : String → String)
    (H : ∀ f ∈ splitComma args.folders,
      fs (pathOf args f) = OpenResult.found (fileOfString (contents f)) ∧
        contents f ≠ "") :
    ∃ f0 rest, splitComma args.folders = f0 :: rest ∧
      (runMain args .ok fs).fatal = none ∧
      (runMain args .ok fs).written = some
        (args.column ++ "," ++ replaceCRLFStr (headerLine (contents f0)) ++
          joinAll ((splitComma args.folders).map
            (fun f => bodyText f (fileOfString (contents f))))) := by
  have hok : ∀ f ∈ splitComma args.folders, folderOk args fs f = true := by
    intro f hf
    obtain ⟨hEq, _⟩ := H f hf
    simp [folderOk, hEq, fileOfString]
  have hG : GoodRun args fs (splitComma args.folders) :=
    fun f hf => Or.inl (hok f hf)
  have hfilter : (splitComma args.folders).filter (folderOk args fs)
      = splitComma args.folders := List.filter_eq_self.mpr hok
  have hfile : ∀ f ∈ splitComma args.folders,
      fileOf args fs f = fileOfString (contents f) := by
    intro f hf
    obtain ⟨hEq, _⟩ := H f hf
    simp [fileOf, folderOpen, hEq]
  obtain ⟨f0, rest, hsp⟩ : ∃ f0 rest, splitComma args.folders = f0 :: rest := by
    cases h : splitComma args.folders with
    | nil => exact absurd h (splitComma_ne_nil args.folders)
    | cons a b => exact ⟨a, b, rfl⟩
  have hmap : (splitComma args.folders).map
        (fun f => bodyText f (fileOf args fs f))
      = (splitComma args.folders).map
        (fun f => bodyText f (fileOfString (contents f))) :=
    List.map_congr_left (fun f hf => by rw [hfile f hf])
  have hhead : headerPart args fs (splitComma args.folders)
      = args.column ++ "," ++ replaceCRLFStr (headerLine (contents f0)) := by
    rw [hsp]
    simp only [headerPart]
    rw [hfile f0 (hsp ▸ List.mem_cons_self f0 rest), headerText_fileOfString]
  refine ⟨f0, rest, hsp, runMain_ok_fatal args fs hG, ?_⟩
  rw [runMain_ok_written args fs hG, hfilter]
  unfold outputFor
  rw [hmap, hhead]

/-- C3: in every run that does not panic, the output after the header part
is, folder block after folder block in the listed order, the successfully
read body lines of each successfully opened folder, each line prefixed with
the folder name and a comma and kept in its input order. -/
theorem c3_body_lines_in_order (args : Args) (fs : String → OpenResult)
    (files : String → FileContent)
    (H : ∀ f ∈ splitComma args.folders,
      (fs (pathOf args f) = OpenResult.found (files f) ∧
        (files f).headerRead ≠ ReadResult.err) ∨
      (fs (pathOf args f) = OpenResult.notFound ∧ args.error = ErrorMode.Skip)) :
    (runMain args .ok fs).fatal = none ∧
    (runMain args .ok fs).written = some
      (headerPart args fs ((splitComma args.folders).filter (folderOk args fs)) ++
        joinAll (((splitComma args.folders).filter (folderOk args fs)).map
          (fun f => joinAll (((files f).bodyReads.filterMap ReadResult.toOption).map
            (fun l => f ++ "," ++ l ++ "\n"))))) := by
  have hG : GoodRun args fs (splitComma args.folders) := by
    intro f hf
    rcases H f hf with ⟨hEq, hh⟩ | ⟨hEq, hskip⟩
    · left
      cases hr : (files f).headerRead with
      | ok h => simp [folderOk, hEq, hr]
      | err => exact absurd hr hh
    · exact Or.inr ⟨by simp [folderAbsent, hEq], hskip⟩
  have hmap : ((splitComma args.folders).filter (folderOk args fs)).map
        (fun f => bodyText f (fileOf args fs f))
      = ((splitComma args.folders).filter (folderOk args fs)).map
        (fun f => joinAll (((files f).bodyReads.filterMap ReadResult.toOption).map
          (fun l => f ++ "," ++ l ++ "\n"))) := by
    refine List.map_congr_left ?_
    intro f hf
    obtain ⟨hfs, hokf⟩ := List.mem_filter.mp hf
    rcases H f hfs with ⟨hEq, _⟩ | ⟨hEq, _⟩
    · rw [show fileOf args fs f = files f by simp [fileOf, folderOpen, hEq]]
      rfl
    · exact absurd hokf (by simp [folderOk, hEq])
  refine ⟨runMain_ok_fatal args fs hG, ?_⟩
  rw [runMain_ok_written args fs hG]
  unfold outputFor
  rw [hmap]

/-- C5: under `Skip` mode a listed folder whose input file is absent
contributes nothing to the output and does not terminate the run: the run
succeeds, performs its final write, and writes exactly the output built
from the present folders alone, each processed as usual. -/
theorem c5_skip_absent_folders (args : Args) (fs : String → OpenResult)
    (files : String → FileContent)
    (hmode : args.error = ErrorMode.Skip)
    (H : ∀ f ∈ splitComma args.folders,
      (fs (pathOf args f) = OpenResult.found (files f) ∧
        (files f).headerRead ≠ ReadResult.err) ∨
      fs (pathOf args f) = OpenResult.notFound) :
    (runMain args .ok fs).fatal = none ∧
    (runMain args .ok fs).finalWrite = true ∧
    (runMain args .ok fs).written = some (outputFor args fs
      ((splitComma args.folders).filter
        (fun f => !(folderAbsent args fs f)))) := by
  have hG : GoodRun args fs (splitComma args.folders) := by
    intro f hf
    rcases H f hf with ⟨hEq, hh⟩ | hEq
    · left
      cases hr : (files f).headerRead with
      | ok h => simp [folderOk, hEq, hr]
      | err => exact absurd hr hh
    · exact Or.inr ⟨by simp [folderAbsent, hEq], hmode⟩
  have hfil : (splitComma args.folders).filter
        (fun f => !(folderAbsent args fs f))
      = (splitComma args.folders).filter (folderOk args fs) := by
    refine List.filter_congr ?_
    intro f hf
    rcases H f hf with ⟨hEq, hh⟩ | hEq
    · cases hr : (files f).headerRead with
      | ok h => simp [folderOk, folderAbsent, hEq, hr]
      | err => exact absurd hr hh
    · simp [folderOk, folderAbsent, hEq]
  refine ⟨runMain_ok_fatal args fs hG, runMain_ok_finalWrite args fs hG, ?_⟩
  rw [runMain_ok_written args fs hG, hfil]

/-- C4: under `Panic` (Abort) mode, when the folders up to some folder all
open with readable headers and that folder's input file is absent, the run
terminates fatally at that folder with the missing-file message, the final
bulk write never executes and no aggregated content is written — whatever
folders are listed afterwards — while the output file was still created
and truncated at the start of the run. -/
theorem c4_abort_on_missing (args : Args) (fs : String → OpenResult)
    (pre post : List String) (f : String)
    (hsplit : splitComma args.folders = pre ++ f :: post)
    (hpre : ∀ g ∈ pre, folderOk args fs g = true)
    (hf : fs (pathOf args f) = OpenResult.notFound)
    (hmode : args.error = ErrorMode.Panic) :
    runMain args .ok fs =
      { outputCreated := true, finalWrite := false, written := none
        logs := [], fatal := some (notFoundMsg f) } := by
  obtain ⟨st1, heq, hlogs⟩ :=
    processAll_prefix_ok args fs pre (f :: post) ⟨false, [], []⟩ hpre
  have hstep : processFolder args fs f st1 =
      .error (notFoundMsg f, st1.logs) := by
    simp [processFolder, openInput, hf, hmode]
  have hrun : processAll args fs (f :: post) st1 =
      .error (notFoundMsg f, st1.logs) := by
    rw [processAll, hstep]
  simp only [runMain, hsplit, heq, hrun, hlogs]

/-- C8: when opening a folder's input path fails for permission reasons the
run terminates fatally (in either error mode, `Skip` included) before the
final write, with a message carrying the owning folder's path — the folder
name occurs in it — whereas a simply missing file makes `open_input` signal
absence (`none`) to the caller rather than an error. -/
theorem c8_permission_fatal (args : Args) (fs : String → OpenResult)
    (pre post : List String) (f : String)
    (hsplit : splitComma args.folders = pre ++ f :: post)
    (hpre : ∀ g ∈ pre, folderOk args fs g = true)
    (hf : fs (pathOf args f) = OpenResult.permissionDenied) :
    runMain args .ok fs =
      { outputCreated := true, finalWrite := false, written := none
        logs := [], fatal := some (permMsg (parentPath args.root f)) } ∧
    (∃ a b, permMsg (parentPath args.root f) = a ++ f ++ b) ∧
    openInput (parentPath args.root f) OpenResult.notFound = Except.ok none := by
  obtain ⟨st1, heq, hlogs⟩ :=
    processAll_prefix_ok args fs pre (f :: post) ⟨false, [], []⟩ hpre
  have hstep : processFolder args fs f st1 =
      .error (permMsg (parentPath args.root f), st1.logs) := by
    simp [processFolder, openInput, hf]
  have hrun : processAll args fs (f :: post) st1 =
      .error (permMsg (parentPath args.root f), st1.logs) := by
    rw [processAll, hstep]
  refine ⟨by simp only [runMain, hsplit, heq, hrun, hlogs], ?_, rfl⟩
  refine ⟨"Permission denied when trying to read file in folder \x27" ++
    args.root ++ "/", "\x27!", ?_⟩
  simp only [permMsg, parentPath, String.append_assoc]

/-- C9: when the first folder whose input file opens successfully has an
empty (zero-byte) file, the header read succeeds with an empty header and
still claims the header slot: the output starts with the column label and a
comma followed by no header text and no newline, directly continued by the
later folders' prefixed body lines, while the genuine headers of those
later folders are discarded. -/
theorem c9_empty_first_header (args : Args) (fs : String → OpenResult)
    (pre post : List String) (f : String)
    (hsplit : splitComma args.folders = pre ++ f :: post)
    (hpre : ∀ g ∈ pre, fs (pathOf args g) = OpenResult.notFound)
    (hmode : args.error = ErrorMode.Skip)
    (hf : fs (pathOf args f) = OpenResult.found (fileOfString ""))
    (hpost : GoodRun args fs post) :
    (runMain args .ok fs).fatal = none ∧
    (runMain args .ok fs).written = some
      (args.column ++ "," ++
        joinAll ((post.filter (folderOk args fs)).map
          (fun g => bodyText g (fileOf args fs g)))) := by
  have hokf : folderOk args fs f = true := by
    simp [folderOk, hf, fileOfString]
  have hG : GoodRun args fs (splitComma args.folders) := by
    rw [hsplit]
    intro g hg
    rcases List.mem_append.mp hg with hg | hg
    · exact Or.inr ⟨by simp [folderAbsent, hpre g hg], hmode⟩
    · rcases List.mem_cons.mp hg with rfl | hg
      · exact Or.inl hokf
      · exact hpost g hg
  have hprefil : pre.filter (folderOk args fs) = [] :=
    List.filter_eq_nil_iff.mpr
      (fun g hg => by simp [folderOk, hpre g hg])
  have hfil : (splitComma args.folders).filter (folderOk args fs)
      = f :: post.filter (folderOk args fs) := by
    rw [hsplit, List.filter_append, hprefil, List.nil_append,
      List.filter_cons_of_pos hokf]
  have hfileF : fileOf args fs f = fileOfString "" := by
    simp [fileOf, folderOpen, hf]
  refine ⟨runMain_ok_fatal args fs hG, ?_⟩
  rw [runMain_ok_written args fs hG, hfil]
  simp only [outputFor, headerPart, List.map_cons, joinAll, hfileF]
  rw [show headerText (fileOfString "") = "" from rfl,
    show replaceCRLFStr "" = "" from rfl,
    show bodyText f (fileOfString "") = "" from rfl,
    String.append_empty, String.empty_append]

/-- C10: every successfully read body line of a text file, as delivered by
the line reader, contains no newline (its `\n` or `\r\n` terminator was
stripped), so the fragment the program emits for it — folder, comma, line,
and the single `\n` the program appends — ends with exactly one newline,
also for a final input line that had no terminator at all. -/
theorem c10_body_line_terminators (s folder l : String)
    (hmem : ReadResult.ok l ∈ (fileOfString s).bodyReads) :
    '\n' ∉ l.data ∧ trailingNewlines (folder ++ "," ++ l ++ "\n") = 1 := by
  have hnl : '\n' ∉ l.data := by
    simp only [fileOfString, List.mem_map] at hmem
    obtain ⟨l2, hl2, hEq⟩ := hmem
    have hd : l.data = l2 := by
      injection hEq with h2
      rw [← h2]
    rw [hd]
    exact newline_not_mem_linesRust _ l2 hl2
  exact ⟨hnl, trailingNewlines_frag folder l hnl⟩

/-- Witness for `c1_unique_header` on the two-folder scenario. -/
theorem c1_unique_header_witness :
    (∀ f ∈ splitComma argsC2.folders,
      fsAB (pathOf argsC2 f) = OpenResult.found (fileOfString (contentsAB f)) ∧
        contentsAB f ≠ "") ∧
    (∃ f0 rest, splitComma argsC2.folders = f0 :: rest ∧
      (runMain argsC2 .ok fsAB).fatal = none ∧
      (runMain argsC2 .ok fsAB).written = some
        (argsC2.column ++ "," ++ replaceCRLFStr (headerLine (contentsAB f0)) ++
          joinAll ((splitComma argsC2.folders).map
            (fun f => bodyText f (fileOfString (contentsAB f)))))) :=
  ⟨by decide, c1_unique_header argsC2 fsAB contentsAB (by decide)⟩

/-- Witness for `c3_body_lines_in_order` on the two-folder scenario. -/
theorem c3_body_lines_in_order_witness :
    (∀ f ∈ splitComma argsC2.folders,
      (fsAB (pathOf argsC2 f) = OpenResult.found (filesAB f) ∧
        (filesAB f).headerRead ≠ ReadResult.err) ∨
      (fsAB (pathOf argsC2 f) = OpenResult.notFound ∧
        argsC2.error = ErrorMode.Skip)) ∧
    ((runMain argsC2 .ok fsAB).fatal = none ∧
    (runMain argsC2 .ok fsAB).written = some
      (headerPart argsC2 fsAB
          ((splitComma argsC2.folders).filter (folderOk argsC2 fsAB)) ++
        joinAll (((splitComma argsC2.folders).filter (folderOk argsC2 fsAB)).map
          (fun f => joinAll (((filesAB f).bodyReads.filterMap ReadResult.toOption).map
            (fun l => f ++ "," ++ l ++ "\n")))))) :=
  ⟨by decide, c3_body_lines_in_order argsC2 fsAB filesAB (by decide)⟩

/-- Witness for `c5_skip_absent_folders`: folder `b` missing, `Skip`
mode. -/
theorem c5_skip_absent_folders_witness :
    argsSkip.error = ErrorMode.Skip ∧
    (∀ f ∈ splitComma argsSkip.folders,
      (fsOnlyA (pathOf argsSkip f) = OpenResult.found (filesAB f) ∧
        (filesAB f).headerRead ≠ ReadResult.err) ∨
      fsOnlyA (pathOf argsSkip f) = OpenResult.notFound) ∧
    ((runMain argsSkip .ok fsOnlyA).fatal = none ∧
    (runMain argsSkip .ok fsOnlyA).finalWrite = true ∧
    (runMain argsSkip .ok fsOnlyA).written = some (outputFor argsSkip fsOnlyA
      ((splitComma argsSkip.folders).filter
        (fun f => !(folderAbsent argsSkip fsOnlyA f))))) :=
  ⟨by decide, by decide,
    c5_skip_absent_folders argsSkip fsOnlyA filesAB (by decide) (by decide)⟩

/-- Witness for `c4_abort_on_missing`: folder `b` missing under `Panic`
mode after a readable folder `a`. -/
theorem c4_abort_on_missing_witness :
    splitComma argsC2.folders = ["a"] ++ "b" :: [] ∧
    (∀ g ∈ ["a"], folderOk argsC2 fsOnlyA g = true) ∧
    fsOnlyA (pathOf argsC2 "b") = OpenResult.notFound ∧
    argsC2.error = ErrorMode.Panic ∧
    runMain argsC2 .ok fsOnlyA =
      { outputCreated := true, finalWrite := false, written := none
        logs := [], fatal := some (notFoundMsg "b") } :=
  ⟨by decide, by decide, by decide, by decide,
    c4_abort_on_missing argsC2 fsOnlyA ["a"] [] "b"
      (by decide) (by decide) (by decide) (by decide)⟩

/-- Witness for `c8_permission_fatal`: folder `b` unreadable, `Skip`
mode. -/
theorem c8_permission_fatal_witness :
    splitComma argsSkip.folders = ["a"] ++ "b" :: [] ∧
    (∀ g ∈ ["a"], folderOk argsSkip fsPermB g = true) ∧
    fsPermB (pathOf argsSkip "b") = OpenResult.permissionDenied ∧
    (runMain argsSkip .ok fsPermB =
      { outputCreated := true, finalWrite := false, written := none
        logs := [], fatal := some (permMsg (parentPath argsSkip.root "b")) } ∧
    (∃ a b, permMsg (parentPath argsSkip.root "b") = a ++ "b" ++ b) ∧
    openInput (parentPath argsSkip.root "b") OpenResult.notFound =
      Except.ok none) :=
  ⟨by decide, by decide, by decide,
    c8_permission_fatal argsSkip fsPermB ["a"] [] "b"
      (by decide) (by decide) (by decide)⟩

/-- Witness for `c9_empty_first_header`: folder `a` missing under `Skip`
mode, folder `b` holding a zero-byte file. -/
theorem c9_empty_first_header_witness :
    splitComma argsSkip.folders = ["a"] ++ "b" :: [] ∧
    (∀ g ∈ ["a"], fsEmptyB (pathOf argsSkip g) = OpenResult.notFound) ∧
    argsSkip.error = ErrorMode.Skip ∧
    fsEmptyB (pathOf argsSkip "b") = OpenResult.found (fileOfString "") ∧
    GoodRun argsSkip fsEmptyB [] ∧
    ((runMain argsSkip .ok fsEmptyB).fatal = none ∧
    (runMain argsSkip .ok fsEmptyB).written = some
      (argsSkip.column ++ "," ++
        joinAll ((List.filter (folderOk argsSkip fsEmptyB) []).map
          (fun g => bodyText g (fileOf argsSkip fsEmptyB g))))) :=
  ⟨by decide, by decide, by decide, by decide, by decide,
    c9_empty_first_header argsSkip fsEmptyB ["a"] [] "b"
      (by decide) (by decide) (by decide) (by decide) (by decide)⟩

/-- Witness for `c10_body_line_terminators`: a file with a `\r\n`-terminated
body line and an unterminated final body line. -/
theorem c10_body_line_terminators_witness :
    ReadResult.ok "3,4" ∈ (fileOfString "h\r\n1,2\r\n3,4").bodyReads ∧
    ('\n' ∉ ("3,4" : String).data ∧
      trailingNewlines ("a" ++ "," ++ "3,4" ++ "\n") = 1) :=
  ⟨by decide, c10_body_line_terminators "h\r\n1,2\r\n3,4" "a" "3,4" (by decide)⟩

end Alligregator
